import Mathlib

/-!
Verification of the IronTract tractography postprocessing core
(`tool.py`, function `run`).

The embedding models, in exact real arithmetic:
  * the streamline data model (ordered lists of 3D points, dipy `length`);
  * the length filter `streamlines[lengths > 1]` (lines 173-174 / 196-197);
  * the connectivity filter `utils.connectivity_matrix(..., inclusive=True)`
    followed by `streamlines = streamlines[grouping[(0, 1)]]` (lines 199-204);
  * `utils.density_map` visitation counting (lines 175 / 206);
  * the log-threshold quantizer: `log_density = np.log10(density + 1)`,
    `max_density = np.max(log_density)`,
    `np.arange(0, max_density, max_density / 200)` and the masks
    `log_density >= t` cast to int (lines 178-187 / 209-218);
  * the dataset-variant dispatch (lines 36-56 and 121-145).
-/

namespace IronTract

open Classical

/-- A point of a streamline in physical (RAS millimeter) space. -/
abbrev Point : Type := ℝ × ℝ × ℝ

/-- Euclidean distance between two points: the segment norm used by
dipy `length` (streamlinespeed). -/
noncomputable def dist3 (p q : Point) : ℝ :=
  Real.sqrt ((p.1 - q.1) ^ 2 + (p.2.1 - q.2.1) ^ 2 + (p.2.2 - q.2.2) ^ 2)

/-- A streamline: an ordered sequence of physical-space 3D points. -/
abbrev Streamline : Type := List Point

/-- dipy `length(s)`: the sum of consecutive point-to-point Euclidean
distances along a streamline. -/
noncomputable def streamLength : Streamline → ℝ
  | [] => 0
  | [_] => 0
  | p :: q :: rest => dist3 p q + streamLength (q :: rest)

/-- Boolean-mask selection `streamlines[lengths > m]` (tool.py lines 173-174
and 196-197, with `m = 1`): keep exactly the streamlines of length `> m`,
in bundle order. -/
noncomputable def lengthFilterMin (m : ℝ) (B : List Streamline) : List Streamline :=
  B.filter (fun s => decide (m < streamLength s))

/-- The bundle after the EPFL-branch reassignment
`streamlines = streamlines[lengths > 1]` (tool.py line 174); in
postprocessing mode "ALL" this bundle is what the VUMC branch receives. -/
noncomputable def epflBundle (B : List Streamline) : List Streamline :=
  lengthFilterMin 1 B

/-- The voxel a physical point falls in (identity affine in this model; the
exact point-in-voxel convention is internal to dipy, modelled here as
coordinatewise flooring). -/
noncomputable def voxelOf (p : Point) : ℤ × ℤ × ℤ :=
  (⌊p.1⌋, ⌊p.2.1⌋, ⌊p.2.2⌋)

/-- An ROI volume: an integer label at every voxel (label 0 = background). -/
abbrev ROIVol : Type := ℤ × ℤ × ℤ → ℤ

/-- The distinct ROI labels a streamline passes through anywhere along its
length (`utils.connectivity_matrix` with `inclusive=True`). -/
noncomputable def streamLabels (rois : ROIVol) (s : Streamline) : Finset ℤ :=
  (s.map (fun p => rois (voxelOf p))).toFinset

/-- Membership of a streamline in the pair-group of two distinct labels
`a ≠ b`: the streamline must touch both labels. -/
def inGroup (rois : ROIVol) (s : Streamline) (a b : ℤ) : Prop :=
  a ≠ b ∧ a ∈ streamLabels rois s ∧ b ∈ streamLabels rois s

/-- Pair-group `grouping[(a, b)]`: the indices of the streamlines in the `(a, b)`
pair-group, in bundle order. -/
noncomputable def grouping (rois : ROIVol) (B : List Streamline) (a b : ℤ) : List ℕ :=
  (List.range B.length).filter (fun i => decide (inGroup rois (B.getD i []) a b))

/-- Selection `streamlines = streamlines[grouping[(0, 1)]]` (tool.py line 204). -/
noncomputable def connectivityFilter (rois : ROIVol) (B : List Streamline) : List Streamline :=
  (grouping rois B 0 1).map (fun i => B.getD i [])

/-- The number of points of a streamline falling in voxel `v` (the
`utils.density_map` per-streamline visitation count; point-in-voxel
convention as in `voxelOf`). -/
noncomputable def streamVisits (s : Streamline) (v : ℤ × ℤ × ℤ) : ℕ :=
  (s.filter (fun p => decide (voxelOf p = v))).length

/-- Model of `utils.density_map` (tool.py line 175/206): per-voxel visitation count
summed over the bundle. -/
noncomputable def densityMap (B : List Streamline) (v : ℤ × ℤ × ℤ) : ℕ :=
  (B.map (fun s => streamVisits s v)).sum

/-- Total of the density map over a finite voxel grid. -/
noncomputable def totalDensity (grid : Finset (ℤ × ℤ × ℤ)) (B : List Streamline) : ℕ :=
  ∑ v ∈ grid, densityMap B v

/-- Model of `np.arange(start, stop, step)` over exact reals.  numpy raises
`ZeroDivisionError` whenever `step = 0` (its test suite asserts this also for
`arange(0, 0, 0)`), modelled as `none`; otherwise it returns the
`⌈(stop - start) / step⌉` values `start + k * step` (empty when that count
is not positive). -/
noncomputable def np_arange (start stop step : ℝ) : Option (List ℝ) :=
  if step = 0 then none
  else some ((List.range (⌈(stop - start) / step⌉).toNat).map
    (fun k : ℕ => start + (k : ℝ) * step))

/-- Elementwise `log_density = np.log10(density + 1)` (tool.py line 178/209). -/
noncomputable def logDensity {ι : Type} (density : ι → ℝ) : ι → ℝ :=
  fun v => Real.logb 10 (density v + 1)

/-- Maximum `max_density = np.max(log_density)` (tool.py line 179/210). -/
noncomputable def maxDensity {ι : Type} [Fintype ι] [Nonempty ι] (density : ι → ℝ) : ℝ :=
  Finset.univ.sup' Finset.univ_nonempty (logDensity density)

/-- The threshold sequence `np.arange(0, max_density, max_density / 200)`
(tool.py line 180/211); `none` models the numpy error raised when the step
is zero. -/
noncomputable def thresholdsOf {ι : Type} [Fintype ι] [Nonempty ι]
    (density : ι → ℝ) : Option (List ℝ) :=
  np_arange 0 (maxDensity density) (maxDensity density / 200)

/-- The thresholds actually emitted by the loop (none when `np.arange`
raised before the loop could run). -/
noncomputable def emitted {ι : Type} [Fintype ι] [Nonempty ι]
    (density : ι → ℝ) : List ℝ :=
  (thresholdsOf density).getD []

/-- The mask `log_density >= t`, as the set of true voxels (tool.py line
183/214). -/
def maskOf {ι : Type} (ld : ι → ℝ) (t : ℝ) : Set ι := {v | t ≤ ld v}

/-- The cast `mask.astype("int32")` (tool.py line 186/217): the integer volume written
to file, `1` where `log_density >= t` and `0` elsewhere. -/
noncomputable def intMask {ι : Type} (ld : ι → ℝ) (t : ℝ) : ι → ℤ :=
  fun v => if t ≤ ld v then 1 else 0

/-- The two direction-field variants the code can construct
(tool.py lines 121-145). -/
inductive DirectionField : Type
  | hcpl : DirectionField
  | dsi : DirectionField
  deriving DecidableEq

/-- Outcome of the dataset-variant dispatch: whether construction failed
fast, what was reported through the progress channel about a wrong dataset,
and which direction field (if any) was constructed. -/
structure DispatchResult : Type where
  failsFast : Bool
  wrongDatasetReport : Option String
  directionField : Option DirectionField
  deriving DecidableEq

/-- tool.py lines 36-56 together with 121-145: "HCPL" and "DSI" select a
direction field; any other dataset value only reports
'Wrong dataset parameter' through the progress channel and execution
continues with no direction field constructed (the failure surfaces later,
at the tracking call, as an unbound-name error). -/
def datasetDispatch (dataset : String) : DispatchResult :=
  if dataset = "HCPL" then ⟨false, none, some DirectionField.hcpl⟩
  else if dataset = "DSI" then ⟨false, none, some DirectionField.dsi⟩
  else ⟨false, some "Wrong dataset parameter", none⟩

/-- Concrete fixture: a one-voxel density volume of value 9
(so its log-density is `log10(9 + 1) = 1`). -/
noncomputable def wDensity : Fin 1 → ℝ := fun _ => 9

/-- Concrete fixture: a straight streamline of total length 1/2. -/
noncomputable def sHalf : Streamline := [(0, 0, 0), (1 / 2, 0, 0)]

/-- Concrete fixture: a straight streamline of total length 2. -/
noncomputable def sTwo : Streamline := [(0, 0, 0), (2, 0, 0)]

/-! ## Helper lemmas -/

theorem mem_lengthFilterMin {m : ℝ} {B : List Streamline} {s : Streamline} :
    s ∈ lengthFilterMin m B ↔ s ∈ B ∧ m < streamLength s := by
  simp [lengthFilterMin, List.mem_filter]

theorem le_maxDensity {ι : Type} [Fintype ι] [Nonempty ι] (density : ι → ℝ) (v : ι) :
    logDensity density v ≤ maxDensity density :=
  Finset.le_sup' (logDensity density) (Finset.mem_univ v)

theorem logDensity_nonneg {ι : Type} {density : ι → ℝ}
    (h0 : ∀ v, 0 ≤ density v) (v : ι) :
    0 ≤ logDensity density v :=
  Real.logb_nonneg (by norm_num) (by linarith [h0 v])

theorem maxDensity_nonneg {ι : Type} [Fintype ι] [Nonempty ι] {density : ι → ℝ}
    (h0 : ∀ v, 0 ≤ density v) :
    0 ≤ maxDensity density :=
  le_trans (logDensity_nonneg h0 (Classical.arbitrary ι))
    (le_maxDensity density (Classical.arbitrary ι))

/-- When `M > 0` the arange call succeeds and yields the 200 values
`k * (M / 200)`, `k = 0, …, 199`. -/
theorem thresholdsOf_pos {ι : Type} [Fintype ι] [Nonempty ι] {density : ι → ℝ}
    (hM : 0 < maxDensity density) :
    thresholdsOf density =
      some ((List.range 200).map (fun k : ℕ => (k : ℝ) * (maxDensity density / 200))) := by
  have hstep : maxDensity density / 200 ≠ 0 := by positivity
  have hdiv : (maxDensity density - 0) / (maxDensity density / 200) = (200 : ℝ) := by
    field_simp
  have hceil : (⌈(maxDensity density - 0) / (maxDensity density / 200)⌉).toNat = 200 := by
    rw [hdiv]
    norm_num
    rfl
  rw [thresholdsOf, np_arange, if_neg hstep, hceil]
  congr 1
  apply List.map_congr_left
  intro k _
  ring

theorem emitted_pos {ι : Type} [Fintype ι] [Nonempty ι] {density : ι → ℝ}
    (hM : 0 < maxDensity density) :
    emitted density
      = (List.range 200).map (fun k : ℕ => (k : ℝ) * (maxDensity density / 200)) := by
  rw [emitted, thresholdsOf_pos hM, Option.getD_some]

theorem emitted_length_pos {ι : Type} [Fintype ι] [Nonempty ι] {density : ι → ℝ}
    (hM : 0 < maxDensity density) :
    (emitted density).length = 200 := by
  rw [emitted_pos hM]
  simp only [List.length_map, List.length_range]

theorem emitted_getD_pos {ι : Type} [Fintype ι] [Nonempty ι] {density : ι → ℝ}
    (hM : 0 < maxDensity density) {i : ℕ} (hi : i < 200) :
    (emitted density).getD i 0 = (i : ℝ) * (maxDensity density / 200) := by
  rw [emitted_pos hM]
  simp [List.getD_eq_getElem?_getD, List.getElem?_range hi]

/-- With a zero maximum, the arange step is zero and the call raises. -/
theorem thresholdsOf_zero {ι : Type} [Fintype ι] [Nonempty ι] {density : ι → ℝ}
    (hM : maxDensity density = 0) :
    thresholdsOf density = none := by
  rw [thresholdsOf, hM]
  simp [np_arange]

theorem maxDensity_wDensity : maxDensity wDensity = 1 := by
  have h1 : logDensity wDensity = fun _ : Fin 1 => Real.logb 10 10 := by
    funext v
    simp only [logDensity, wDensity]
    norm_num
  rw [maxDensity, h1, Finset.sup'_const]
  exact Real.logb_self_eq_one (by norm_num)

theorem dist3_x (a b : ℝ) : dist3 (a, 0, 0) (b, 0, 0) = |a - b| := by
  simp [dist3, Real.sqrt_sq_eq_abs]

theorem streamLength_pair (p q : Point) : streamLength [p, q] = dist3 p q := by
  simp [streamLength]

theorem streamLength_sHalf : streamLength sHalf = 1 / 2 := by
  have h : streamLength sHalf = dist3 ((0 : ℝ), (0 : ℝ), (0 : ℝ)) (1 / 2, 0, 0) := by
    rw [sHalf, streamLength_pair]
  rw [h, dist3_x, abs_sub_comm, abs_of_nonneg (by norm_num : (0 : ℝ) ≤ 1 / 2 - 0)]
  norm_num

theorem streamLength_sTwo : streamLength sTwo = 2 := by
  have h : streamLength sTwo = dist3 ((0 : ℝ), (0 : ℝ), (0 : ℝ)) (2, 0, 0) := by
    rw [sTwo, streamLength_pair]
  rw [h, dist3_x, abs_sub_comm, abs_of_nonneg (by norm_num : (0 : ℝ) ≤ 2 - 0)]
  norm_num

/-! ## Claims -/

/-- C5: the length filter at minimum 1 retains exactly the streamlines of
total length strictly greater than 1 and discards every streamline of total
length at most 1; in particular, of two streamlines of lengths 1/2 and 2,
only the second is retained. -/
theorem lengthFilter_retains_gt_one (B : List Streamline) :
    (∀ s, s ∈ lengthFilterMin 1 B ↔ s ∈ B ∧ 1 < streamLength s) ∧
      streamLength sHalf = 1 / 2 ∧ streamLength sTwo = 2 ∧
      lengthFilterMin 1 [sHalf, sTwo] = [sTwo] := by
  refine ⟨fun s => mem_lengthFilterMin, streamLength_sHalf, streamLength_sTwo, ?_⟩
  have hA : decide (1 < streamLength sHalf) = false :=
    decide_eq_false (by rw [streamLength_sHalf]; norm_num)
  have hB : decide (1 < streamLength sTwo) = true :=
    decide_eq_true (by rw [streamLength_sTwo]; norm_num)
  rw [lengthFilterMin]
  simp [List.filter_cons, hA, hB]

/-- C9: the length filter is idempotent, so in postprocessing mode "ALL" the
VUMC branch's re-filtered input (the already-filtered EPFL bundle, filtered
again) equals the bundle obtained by filtering the tracker output directly. -/
theorem lengthFilter_idempotent_branch (B : List Streamline) :
    lengthFilterMin 1 (lengthFilterMin 1 B) = lengthFilterMin 1 B ∧
      lengthFilterMin 1 (epflBundle B) = lengthFilterMin 1 B := by
  have h : lengthFilterMin 1 (lengthFilterMin 1 B) = lengthFilterMin 1 B := by
    rw [lengthFilterMin, lengthFilterMin, List.filter_filter]
    simp
  exact ⟨h, h⟩

/-- C6: the connectivity filter retains exactly the streamlines grouped
under the target label pair `(0, 1)`; a streamline touching fewer than two
distinct labels belongs to no pair-group, and a streamline touching only
the labels `{2, 5}` is excluded from the output bundle. -/
theorem connectivityFilter_target_pair (rois : ROIVol) (B : List Streamline) :
    (∀ i, i ∈ grouping rois B 0 1 ↔
        i < B.length ∧ inGroup rois (B.getD i []) 0 1) ∧
      (∀ s, s ∈ connectivityFilter rois B ↔
        ∃ i ∈ grouping rois B 0 1, B.getD i [] = s) ∧
      (∀ s a b, (streamLabels rois s).card < 2 → ¬inGroup rois s a b) ∧
      (∀ s, streamLabels rois s = {2, 5} → s ∉ connectivityFilter rois B) := by
  have h1 : ∀ i, i ∈ grouping rois B 0 1 ↔
      i < B.length ∧ inGroup rois (B.getD i []) 0 1 := by
    intro i
    simp [grouping, List.mem_filter, List.mem_range]
  have h2 : ∀ s, s ∈ connectivityFilter rois B ↔
      ∃ i ∈ grouping rois B 0 1, B.getD i [] = s := by
    intro s
    simp [connectivityFilter, List.mem_map]
  refine ⟨h1, h2, ?_, ?_⟩
  · rintro s a b hcard ⟨hab, ha, hb⟩
    exact absurd (Finset.one_lt_card.2 ⟨a, ha, b, hb, hab⟩) (by omega)
  · intro s hlab hs
    rcases (h2 s).1 hs with ⟨i, hi, his⟩
    have hg := ((h1 i).1 hi).2
    rw [his] at hg
    rcases hg with ⟨hab, h0, hb1⟩
    rw [hlab] at h0
    simp at h0

/-- C8: for length-filter minima `m1 ≤ m2`, the total of the density map
over any voxel grid computed from the bundle filtered at `m2` is at most
the total computed from the bundle filtered at `m1`: the summed density is
monotonically non-decreasing as the minimum decreases. -/
theorem totalDensity_monotone (grid : Finset (ℤ × ℤ × ℤ)) (B : List Streamline)
    (m1 m2 : ℝ) (h : m1 ≤ m2) :
    totalDensity grid (lengthFilterMin m2 B) ≤ totalDensity grid (lengthFilterMin m1 B) := by
  have hsub : List.Sublist (lengthFilterMin m2 B) (lengthFilterMin m1 B) := by
    apply List.monotone_filter_right
    intro s hs
    exact decide_eq_true (lt_of_le_of_lt h (of_decide_eq_true hs))
  rw [totalDensity, totalDensity]
  apply Finset.sum_le_sum
  intro v _
  rw [densityMap, densityMap]
  exact List.Sublist.sum_le_sum (hsub.map _) (fun a _ => Nat.zero_le a)

/-- C8 witness: the monotonicity applied at the concrete minima 1 ≤ 2 on a
concrete bundle and grid. -/
theorem totalDensity_monotone_witness :
    totalDensity {((0 : ℤ), (0 : ℤ), (0 : ℤ))} (lengthFilterMin 2 [sTwo]) ≤
      totalDensity {((0 : ℤ), (0 : ℤ), (0 : ℤ))} (lengthFilterMin 1 [sTwo]) :=
  totalDensity_monotone {((0 : ℤ), (0 : ℤ), (0 : ℤ))} [sTwo] 1 2 (by norm_num)

/-- C1: for every nonnegative density volume, the emitted thresholds are
strictly increasing with index, each mask is the indicator
`{log_density >= t}`, and for emitted indices `i < j` the mask at `i`
contains (as a set of true voxels) the mask at `j`. -/
theorem thresholdStack_monotone {ι : Type} [Fintype ι] [Nonempty ι]
    (density : ι → ℝ) (h0 : ∀ v, 0 ≤ density v)
    (i j : ℕ) (hij : i < j) (hj : j < (emitted density).length) :
    (emitted density).getD i 0 < (emitted density).getD j 0 ∧
      maskOf (logDensity density) ((emitted density).getD j 0) ⊆
        maskOf (logDensity density) ((emitted density).getD i 0) := by
  rcases (maxDensity_nonneg h0).lt_or_eq with hM | hM
  · have hlen : (emitted density).length = 200 := emitted_length_pos hM
    have hj200 : j < 200 := hlen ▸ hj
    have hi200 : i < 200 := lt_trans hij hj200
    have hstep : 0 < maxDensity density / 200 := by positivity
    have hgi := emitted_getD_pos hM hi200
    have hgj := emitted_getD_pos hM hj200
    have hlt : (emitted density).getD i 0 < (emitted density).getD j 0 := by
      rw [hgi, hgj]
      exact mul_lt_mul_of_pos_right (by exact_mod_cast hij) hstep
    exact ⟨hlt, fun v hv => le_trans (le_of_lt hlt) hv⟩
  · exfalso
    have hnil : emitted density = [] := by
      rw [emitted, thresholdsOf_zero hM.symm]
      rfl
    rw [hnil] at hj
    exact Nat.not_lt_zero j hj

/-- C1 witness: the monotone stack at the concrete one-voxel volume of
density 9 (maximum log-density 1), at indices 0 < 1. -/
theorem thresholdStack_monotone_witness :
    (emitted wDensity).getD 0 0 < (emitted wDensity).getD 1 0 ∧
      maskOf (logDensity wDensity) ((emitted wDensity).getD 1 0) ⊆
        maskOf (logDensity wDensity) ((emitted wDensity).getD 0 0) :=
  thresholdStack_monotone wDensity (fun _ => by rw [wDensity]; norm_num) 0 1
    (by norm_num)
    (by rw [emitted_length_pos (by rw [maxDensity_wDensity]; norm_num)]; norm_num)

/-- C2: when the log-density maximum `M` is strictly positive, the threshold
loop generates exactly the 200 thresholds `k * (M / 200)` for
`k = 0, …, 199` — evenly spaced with step `M / 200`, starting at 0, each
strictly below `M` — and hence emits exactly 200 output volumes. -/
theorem thresholdCount_exact {ι : Type} [Fintype ι] [Nonempty ι]
    (density : ι → ℝ) (hM : 0 < maxDensity density) :
    thresholdsOf density =
        some ((List.range 200).map (fun k : ℕ => (k : ℝ) * (maxDensity density / 200))) ∧
      (emitted density).length = 200 ∧
      ∀ t ∈ emitted density, 0 ≤ t ∧ t < maxDensity density := by
  refine ⟨thresholdsOf_pos hM, emitted_length_pos hM, ?_⟩
  intro t ht
  rw [emitted_pos hM] at ht
  rcases List.mem_map.1 ht with ⟨k, hk, rfl⟩
  rw [List.mem_range] at hk
  have hstep : 0 < maxDensity density / 200 := by positivity
  refine ⟨by positivity, ?_⟩
  have hk200 : (k : ℝ) < 200 := by exact_mod_cast hk
  calc (k : ℝ) * (maxDensity density / 200)
      < 200 * (maxDensity density / 200) := mul_lt_mul_of_pos_right hk200 hstep
    _ = maxDensity density := by field_simp

/-- C2 witness: the exact threshold count at the concrete one-voxel volume
of density 9 (maximum log-density 1). -/
theorem thresholdCount_exact_witness :
    (emitted wDensity).length = 200 :=
  (thresholdCount_exact wDensity (by rw [maxDensity_wDensity]; norm_num)).2.1

/-- C10: when `M > 0`, the first emitted threshold is 0 and the first
emitted volume is the all-true mask — the log-density of a nonnegative
density volume is everywhere nonnegative — and every emitted integer mask
holds only the values 0 and 1. -/
theorem firstMask_allTrue {ι : Type} [Fintype ι] [Nonempty ι]
    (density : ι → ℝ) (h0 : ∀ v, 0 ≤ density v) (hM : 0 < maxDensity density) :
    (emitted density).getD 0 0 = 0 ∧
      (∀ v, 0 ≤ logDensity density v) ∧
      (∀ v, intMask (logDensity density) ((emitted density).getD 0 0) v = 1) ∧
      ∀ t ∈ emitted density, ∀ v,
        intMask (logDensity density) t v = 0 ∨ intMask (logDensity density) t v = 1 := by
  have h00 : (emitted density).getD 0 0 = 0 := by
    rw [emitted_getD_pos hM (by norm_num)]
    norm_num
  refine ⟨h00, logDensity_nonneg h0, ?_, ?_⟩
  · intro v
    rw [h00, intMask]
    exact if_pos (logDensity_nonneg h0 v)
  · intro t _ v
    rw [intMask]
    by_cases h : t ≤ logDensity density v
    · exact Or.inr (if_pos h)
    · exact Or.inl (if_neg h)

/-- C10 witness: the all-true first mask at the concrete one-voxel volume of
density 9. -/
theorem firstMask_allTrue_witness :
    (emitted wDensity).getD 0 0 = 0 ∧
      (∀ v, 0 ≤ logDensity wDensity v) ∧
      (∀ v, intMask (logDensity wDensity) ((emitted wDensity).getD 0 0) v = 1) ∧
      ∀ t ∈ emitted wDensity, ∀ v,
        intMask (logDensity wDensity) t v = 0 ∨ intMask (logDensity wDensity) t v = 1 :=
  firstMask_allTrue wDensity (fun _ => by rw [wDensity]; norm_num)
    (by rw [maxDensity_wDensity]; norm_num)

/-- C7: for a nonnegative density volume the log transform equals
`log10(density + 1)` elementwise and is everywhere finite and nonnegative
(the `+ 1` shift makes the argument of the logarithm at least 1; in the
exact-real model the value is a real number, so no NaN or -Inf). -/
theorem logTransform_nonneg {ι : Type} (density : ι → ℝ) (h0 : ∀ v, 0 ≤ density v) :
    ∀ v, logDensity density v = Real.logb 10 (density v + 1) ∧
      0 ≤ logDensity density v :=
  fun v => ⟨rfl, logDensity_nonneg h0 v⟩

/-- C7 witness: the log transform at the concrete one-voxel volume of
density 9. -/
theorem logTransform_nonneg_witness :
    logDensity wDensity 0 = Real.logb 10 (wDensity 0 + 1) ∧
      0 ≤ logDensity wDensity 0 :=
  logTransform_nonneg wDensity (fun _ => by rw [wDensity]; norm_num) 0

/-- C3: with an empty filtered bundle the density map is all zero; for an
all-zero density volume the log-density maximum is 0 and the threshold step
is 0, so the embedded `np.arange` raises (result `none`, numpy's
`ZeroDivisionError`) instead of the loop completing with zero volumes. -/
theorem zeroMax_thresholds_raise :
    (∀ v, densityMap [] v = 0) ∧
      maxDensity (fun _ : Fin 1 => (0 : ℝ)) = 0 ∧
      thresholdsOf (fun _ : Fin 1 => (0 : ℝ)) = none := by
  have hM : maxDensity (fun _ : Fin 1 => (0 : ℝ)) = 0 := by
    have h1 : logDensity (fun _ : Fin 1 => (0 : ℝ)) = fun _ : Fin 1 => (0 : ℝ) := by
      funext v
      simp [logDensity]
    rw [maxDensity, h1, Finset.sup'_const]
  exact ⟨fun v => rfl, hM, thresholdsOf_zero hM⟩

/-- C4 counterexample: at the unrecognized dataset value "DTI" the code does
not fail fast — it continues (no fast failure) with no direction field
constructed, only reporting 'Wrong dataset parameter'. -/
theorem datasetDispatch_no_failFast_cex :
    (datasetDispatch "DTI").failsFast = false ∧
      (datasetDispatch "DTI").directionField = none ∧
      (datasetDispatch "DTI").wrongDatasetReport = some "Wrong dataset parameter" := by
  refine ⟨?_, ?_, ?_⟩ <;> simp [datasetDispatch]

/-- C4 amended: for every dataset value other than "HCPL" and "DSI", the
dispatch reports 'Wrong dataset parameter' through the progress channel and
continues without failing fast and without constructing a direction field. -/
theorem datasetDispatch_unrecognized_reports (d : String)
    (h1 : d ≠ "HCPL") (h2 : d ≠ "DSI") :
    datasetDispatch d = ⟨false, some "Wrong dataset parameter", none⟩ := by
  rw [datasetDispatch, if_neg h1, if_neg h2]

/-- C4 witness: the amended dispatch behavior at the concrete unrecognized
dataset value "DTI2". -/
theorem datasetDispatch_unrecognized_reports_witness :
    datasetDispatch "DTI2" = ⟨false, some "Wrong dataset parameter", none⟩ :=
  datasetDispatch_unrecognized_reports "DTI2" (by simp) (by simp)

end IronTract
